import Mathlib

/-!
Verification of `3002model.py`, a script simulating long-term potentiation
(LTP) of a single synapse under three conditions (Healthy, AD, AD + Treatment).

The numeric code is embedded over `ℚ`: the Python floats in this script take
values (0.1, 40, 45, 2.5, ...) whose float rounding never changes the branch
taken by the window test `tetanus_start <= t < tetanus_end` on the grid used,
so the exact rational model is branch-faithful to the source.
-/

namespace LTP

/-- One condition's parameter record, mirroring the Python dict built in
`setup_parameters` (`total_time`, `dt`, `w_initial`, `tetanus_start`,
`tetanus_end` shared; `w_max`, `learning_rate` condition-specific). -/
structure Params where
  total_time : ℚ
  dt : ℚ
  w_initial : ℚ
  tetanus_start : ℚ
  tetanus_end : ℚ
  w_max : ℚ
  learning_rate : ℚ
  deriving DecidableEq, Repr

/-- The `'Healthy'` record from `setup_parameters`. -/
def healthyParams : Params :=
  { total_time := 100, dt := 1/10, w_initial := 1,
    tetanus_start := 40, tetanus_end := 45,
    w_max := 5/2, learning_rate := 1/2 }

/-- The `'AD'` record from `setup_parameters`. -/
def adParams : Params :=
  { total_time := 100, dt := 1/10, w_initial := 1,
    tetanus_start := 40, tetanus_end := 45,
    w_max := 6/5, learning_rate := 1/20 }

/-- The `'AD + Treatment'` record from `setup_parameters`. -/
def adTreatmentParams : Params :=
  { total_time := 100, dt := 1/10, w_initial := 1,
    tetanus_start := 40, tetanus_end := 45,
    w_max := 5/2, learning_rate := 1/2 }

/-- `setup_parameters`: the insertion-ordered dict of the three conditions,
embedded as an association list. -/
def setup_parameters : List (String × Params) :=
  [("Healthy", healthyParams), ("AD", adParams),
   ("AD + Treatment", adTreatmentParams)]

/-- Length of `np.arange(0, total_time, dt)` for a nonzero step:
`max 0 ⌈total_time / dt⌉`. -/
def numSteps (p : Params) : ℕ :=
  (⌈p.total_time / p.dt⌉).toNat

/-- The Python window test `tetanus_start <= current_time < tetanus_end`
at line 70. -/
def inWindow (p : Params) (t : ℚ) : Prop :=
  p.tetanus_start ≤ t ∧ t < p.tetanus_end

instance (p : Params) (t : ℚ) : Decidable (inWindow p t) :=
  inferInstanceAs (Decidable (_ ∧ _))

/-- The value the loop of `run_ltp_simulation` stores in
`synaptic_weight[i]`: index `0` holds `w_initial`, and iteration `i` of the
loop writes index `i+1` from index `i`, applying the LTP induction rule
`dw = learning_rate * (w_max - current_weight) * dt` when
`time_steps[i] = i * dt` lies in the stimulation window and copying the
weight otherwise. -/
def weightSeq (p : Params) : ℕ → ℚ
  | 0 => p.w_initial
  | i + 1 =>
    let w := weightSeq p i
    if inWindow p ((i : ℚ) * p.dt)
    then w + p.learning_rate * (p.w_max - w) * p.dt
    else w

/-- The `time_steps` array: `np.arange(0, total_time, dt)`, whose `i`-th
entry is `i * dt`. -/
def timeSteps (p : Params) : List ℚ :=
  (List.range (numSteps p)).map (fun i : ℕ => (i : ℚ) * p.dt)

/-- The `synaptic_weight` array after the loop has run. -/
def weights (p : Params) : List ℚ :=
  (List.range (numSteps p)).map (weightSeq p)

/-- `run_ltp_simulation`: returns `(time_steps, synaptic_weight)`.
`none` models the two failure modes of the source on degenerate input:
`dt = 0` raises `ZeroDivisionError` inside `np.arange`, and an empty grid
(e.g. `total_time <= 0`, or a negative `dt`) makes the assignment
`synaptic_weight[0] = w_initial` at line 64 raise `IndexError`. -/
def run_ltp_simulation (p : Params) : Option (List ℚ × List ℚ) :=
  if p.dt = 0 then none
  else if numSteps p = 0 then none
  else some (timeSteps p, weights p)

end LTP

namespace LTP

/-! ### Basic lemmas about the embedded simulator -/

/-- One unfolding of the loop body. -/
lemma weightSeq_succ (p : Params) (i : ℕ) :
    weightSeq p (i + 1) =
      if inWindow p ((i : ℚ) * p.dt)
      then weightSeq p i + p.learning_rate * (p.w_max - weightSeq p i) * p.dt
      else weightSeq p i := by
  simp only [weightSeq]

lemma weightSeq_zero (p : Params) : weightSeq p 0 = p.w_initial := rfl

/-- The stored weight never exceeds `w_max`, provided the effective step
gain `learning_rate * dt` lies in `[0, 1]` and the run starts below
`w_max`. -/
lemma weightSeq_le_w_max (p : Params)
    (h0 : 0 ≤ p.learning_rate * p.dt) (h1 : p.learning_rate * p.dt ≤ 1)
    (hw : p.w_initial ≤ p.w_max) : ∀ i, weightSeq p i ≤ p.w_max := by
  intro i
  induction i with
  | zero => exact hw
  | succ i ih =>
    rw [weightSeq_succ]
    split
    · nlinarith [ih]
    · exact ih

/-- Each loop iteration can only increase the weight (same hypotheses). -/
lemma weightSeq_le_succ (p : Params)
    (h0 : 0 ≤ p.learning_rate * p.dt) (h1 : p.learning_rate * p.dt ≤ 1)
    (hw : p.w_initial ≤ p.w_max) :
    ∀ i, weightSeq p i ≤ weightSeq p (i + 1) := by
  intro i
  have hle := weightSeq_le_w_max p h0 h1 hw i
  rw [weightSeq_succ]
  split
  · nlinarith [hle]
  · exact le_refl _

/-- Monotonicity of the whole trace (same hypotheses). -/
lemma weightSeq_mono (p : Params)
    (h0 : 0 ≤ p.learning_rate * p.dt) (h1 : p.learning_rate * p.dt ≤ 1)
    (hw : p.w_initial ≤ p.w_max) :
    ∀ i j, i ≤ j → weightSeq p i ≤ weightSeq p j := by
  intro i j hij
  induction j, hij using Nat.le_induction with
  | base => exact le_refl _
  | succ j hij ih => exact le_trans ih (weightSeq_le_succ p h0 h1 hw j)

/-- Strict version of the upper bound: starting strictly below `w_max`
with gain strictly below `1` keeps the weight strictly below `w_max`. -/
lemma weightSeq_lt_w_max (p : Params)
    (h0 : 0 ≤ p.learning_rate * p.dt) (h1 : p.learning_rate * p.dt < 1)
    (hw : p.w_initial < p.w_max) : ∀ i, weightSeq p i < p.w_max := by
  intro i
  induction i with
  | zero => exact hw
  | succ i ih =>
    rw [weightSeq_succ]
    split
    · nlinarith [ih]
    · exact ih

/-- The weight is copied unchanged across any run of indices whose grid
times lie outside the stimulation window. -/
lemma weightSeq_const_outside (p : Params) :
    ∀ i j : ℕ, i ≤ j → (∀ k : ℕ, i ≤ k → k < j → ¬ inWindow p ((k : ℚ) * p.dt)) →
      weightSeq p j = weightSeq p i := by
  intro i j hij
  induction j, hij using Nat.le_induction with
  | base => intro _; rfl
  | succ j hij ih =>
    intro hk
    rw [weightSeq_succ, if_neg (hk j hij (Nat.lt_succ_self j))]
    exact ih fun k h1 h2 => hk k h1 (Nat.lt_succ_of_lt h2)

/-- If no grid time before `n` lies in the window, the weight is still
`w_initial` at index `n`. -/
lemma weightSeq_prefix (p : Params) (n : ℕ)
    (h : ∀ k : ℕ, k < n → ¬ inWindow p ((k : ℚ) * p.dt)) :
    weightSeq p n = p.w_initial :=
  weightSeq_const_outside p 0 n (Nat.zero_le n) (fun k _ h2 => h k h2)

/-- Closed-form solution over a block of in-window steps: the gap to
`w_max` shrinks geometrically with ratio `1 - learning_rate * dt`. -/
lemma weightSeq_window_closed (p : Params) (a : ℕ) :
    ∀ k, (∀ j, a ≤ j → j < a + k → inWindow p ((j : ℚ) * p.dt)) →
      weightSeq p (a + k) =
        p.w_max - (p.w_max - weightSeq p a) * (1 - p.learning_rate * p.dt) ^ k := by
  intro k
  induction k with
  | zero => intro _; simp
  | succ k ih =>
    intro h
    have hw : inWindow p ((↑(a + k) : ℚ) * p.dt) :=
      h (a + k) (Nat.le_add_right a k) (by omega)
    have ih' := ih fun j hj hj' => h j hj (by omega)
    show weightSeq p ((a + k) + 1) = _
    rw [weightSeq_succ, if_pos hw, ih']
    ring

end LTP

namespace LTP

/-! ### Facts specific to the three conditions of `setup_parameters` -/

lemma numSteps_healthy : numSteps healthyParams = 1000 := by
  with_unfolding_all decide

lemma numSteps_ad : numSteps adParams = 1000 := by
  with_unfolding_all decide

lemma numSteps_adTreatment : numSteps adTreatmentParams = 1000 := by
  with_unfolding_all decide

/-- Membership in `setup_parameters` means being one of the three records. -/
lemma mem_setup_parameters {nm : String} {p : Params}
    (h : (nm, p) ∈ setup_parameters) :
    p = healthyParams ∨ p = adParams ∨ p = adTreatmentParams := by
  simp only [setup_parameters, List.mem_cons, List.mem_singleton,
    Prod.mk.injEq, List.not_mem_nil, or_false] at h
  rcases h with ⟨_, h⟩ | ⟨_, h⟩ | ⟨_, h⟩ <;> simp [h]

/-- All three conditions share `dt = 1/10` and window `[40, 45)`, so the
window test at loop index `i` holds iff `400 ≤ i < 450`. -/
lemma inWindow_shared_iff (p : Params)
    (hdt : p.dt = 1/10) (hs : p.tetanus_start = 40) (he : p.tetanus_end = 45)
    (i : ℕ) : inWindow p ((i : ℚ) * p.dt) ↔ 400 ≤ i ∧ i < 450 := by
  rw [inWindow, hdt, hs, he]
  constructor
  · rintro ⟨h1, h2⟩
    constructor
    · have : (400 : ℚ) ≤ (i : ℚ) := by linarith
      exact_mod_cast this
    · have : (i : ℚ) < 450 := by linarith
      exact_mod_cast this
  · rintro ⟨h1, h2⟩
    have h1' : (400 : ℚ) ≤ (i : ℚ) := by exact_mod_cast h1
    have h2' : (i : ℚ) < 450 := by exact_mod_cast h2
    constructor <;> linarith

lemma inWindow_healthy_iff (i : ℕ) :
    inWindow healthyParams ((i : ℚ) * healthyParams.dt) ↔ 400 ≤ i ∧ i < 450 :=
  inWindow_shared_iff healthyParams rfl rfl rfl i

lemma inWindow_ad_iff (i : ℕ) :
    inWindow adParams ((i : ℚ) * adParams.dt) ↔ 400 ≤ i ∧ i < 450 :=
  inWindow_shared_iff adParams rfl rfl rfl i

/-- Before the stimulation starts the Healthy weight is still `1`. -/
lemma weightSeq_healthy_400 : weightSeq healthyParams 400 = 1 :=
  weightSeq_prefix healthyParams 400
    (fun k hk h => by rw [inWindow_healthy_iff] at h; omega)

lemma weightSeq_ad_400 : weightSeq adParams 400 = 1 :=
  weightSeq_prefix adParams 400
    (fun k hk h => by rw [inWindow_ad_iff] at h; omega)

/-- Closed form of the Healthy weight at the end of the window
(`t = 45` s is grid index `450`). -/
lemma weightSeq_healthy_450 :
    weightSeq healthyParams 450 = 5/2 - 3/2 * ((19 : ℚ)/20) ^ 50 := by
  have h := weightSeq_window_closed healthyParams 400 50
    (fun j hj hj' => (inWindow_healthy_iff j).2 ⟨hj, by omega⟩)
  rw [weightSeq_healthy_400] at h
  rw [show healthyParams.w_max = 5/2 from rfl,
    show healthyParams.learning_rate = 1/2 from rfl,
    show healthyParams.dt = 1/10 from rfl] at h
  show weightSeq healthyParams (400 + 50) = _
  rw [h]
  norm_num

/-- Closed form of the AD weight at the end of the window. -/
lemma weightSeq_ad_450 :
    weightSeq adParams 450 = 6/5 - 1/5 * ((199 : ℚ)/200) ^ 50 := by
  have h := weightSeq_window_closed adParams 400 50
    (fun j hj hj' => (inWindow_ad_iff j).2 ⟨hj, by omega⟩)
  rw [weightSeq_ad_400] at h
  rw [show adParams.w_max = 6/5 from rfl,
    show adParams.learning_rate = 1/20 from rfl,
    show adParams.dt = 1/10 from rfl] at h
  show weightSeq adParams (400 + 50) = _
  rw [h]
  norm_num

end LTP

namespace LTP

/-! ### Lengths and list access -/

lemma length_timeSteps (p : Params) : (timeSteps p).length = numSteps p := by
  rw [timeSteps, List.length_map, List.length_range]

lemma length_weights (p : Params) : (weights p).length = numSteps p := by
  rw [weights, List.length_map, List.length_range]

lemma timeSteps_get (p : Params) (i : ℕ) (hi : i < (timeSteps p).length) :
    (timeSteps p).get ⟨i, hi⟩ = (i : ℚ) * p.dt := by
  simp only [timeSteps, List.get_eq_getElem, List.getElem_map, List.getElem_range]

lemma weights_get (p : Params) (i : ℕ) (hi : i < (weights p).length) :
    (weights p).get ⟨i, hi⟩ = weightSeq p i := by
  simp only [weights, List.get_eq_getElem, List.getElem_map, List.getElem_range]

/-- A tiny record used to instantiate theorems on concrete input:
three grid points, stimulation window `[1, 2)`. -/
def demoParams : Params :=
  { total_time := 3, dt := 1, w_initial := 1,
    tetanus_start := 1, tetanus_end := 2,
    w_max := 2, learning_rate := 1 }

end LTP

namespace LTP

/-- C1: whenever `run_ltp_simulation` returns a trace for a parameter
record, the time array satisfies `time[i] = i * dt` (starting from `0`),
the weight array starts at `w_initial`, and `weight[i+1]` is obtained from
`weight[i]` by the exponential-approach update
`weight[i] + learning_rate * (w_max - weight[i]) * dt` when the `i`-th grid
time lies in the stimulation window, and equals `weight[i]` otherwise. -/
theorem run_ltp_simulation_recurrence (p : Params) (ts ws : List ℚ)
    (h : run_ltp_simulation p = some (ts, ws)) :
    (∀ i : ℕ, ∀ hi : i < ts.length, ts.get ⟨i, hi⟩ = (i : ℚ) * p.dt) ∧
    (∀ h0 : 0 < ws.length, ws.get ⟨0, h0⟩ = p.w_initial) ∧
    (∀ i : ℕ, ∀ hi1 : i + 1 < ws.length, ∀ hi : i < ws.length,
      ws.get ⟨i + 1, hi1⟩ =
        if inWindow p ((i : ℚ) * p.dt)
        then ws.get ⟨i, hi⟩ + p.learning_rate * (p.w_max - ws.get ⟨i, hi⟩) * p.dt
        else ws.get ⟨i, hi⟩) := by
  rw [run_ltp_simulation] at h
  split_ifs at h
  injection h with h
  injection h with hts hws
  subst hts; subst hws
  refine ⟨fun i hi => timeSteps_get p i hi, fun h0 => weights_get p 0 h0, ?_⟩
  intro i hi1 hi
  rw [weights_get p (i + 1) hi1, weights_get p i hi, weightSeq_succ]

/-- Witness for C1 on the concrete record `demoParams`. -/
theorem run_ltp_simulation_recurrence_witness :
    (weights demoParams).get ⟨0, by with_unfolding_all decide⟩ =
      demoParams.w_initial :=
  (run_ltp_simulation_recurrence demoParams (timeSteps demoParams)
    (weights demoParams) (by with_unfolding_all decide)).2.1
    (by with_unfolding_all decide)

end LTP

namespace LTP

/-- C2: for each condition of `setup_parameters`, the weight trace is
non-decreasing over indices whose grid times fall in the stimulation
window, and constant across every run of indices whose grid times fall
outside it. -/
theorem trace_monotone_in_window_const_outside :
    ∀ nm : String, ∀ p : Params, (nm, p) ∈ setup_parameters →
      (∀ i j : ℕ, i ≤ j → inWindow p ((i : ℚ) * p.dt) →
        inWindow p ((j : ℚ) * p.dt) → weightSeq p i ≤ weightSeq p j) ∧
      (∀ i j : ℕ, i ≤ j →
        (∀ k : ℕ, i ≤ k → k < j → ¬ inWindow p ((k : ℚ) * p.dt)) →
        weightSeq p j = weightSeq p i) := by
  intro nm p hp
  refine ⟨fun i j hij _ _ => ?_,
    fun i j hij hk => weightSeq_const_outside p i j hij hk⟩
  rcases mem_setup_parameters hp with rfl | rfl | rfl <;>
    exact weightSeq_mono _ (by norm_num [healthyParams, adParams, adTreatmentParams])
      (by norm_num [healthyParams, adParams, adTreatmentParams])
      (by norm_num [healthyParams, adParams, adTreatmentParams]) i j hij

/-- Witness for C2: the Healthy weight does not decrease across the first
in-window step (indices 400 and 401). -/
theorem trace_monotone_in_window_const_outside_witness :
    weightSeq healthyParams 400 ≤ weightSeq healthyParams 401 :=
  (trace_monotone_in_window_const_outside "Healthy" healthyParams
      (by simp [setup_parameters])).1 400 401 (by norm_num)
    ((inWindow_healthy_iff 400).2 (by norm_num))
    ((inWindow_healthy_iff 401).2 (by norm_num))

/-- C3: for each condition of `setup_parameters`, every weight stored in
the trace (in particular the final one) is at most that condition's
`w_max`. -/
theorem trace_weights_le_w_max :
    ∀ nm : String, ∀ p : Params, (nm, p) ∈ setup_parameters →
      ∀ w ∈ weights p, w ≤ p.w_max := by
  intro nm p hp w hw
  rw [weights] at hw
  obtain ⟨i, _, rfl⟩ := List.mem_map.1 hw
  rcases mem_setup_parameters hp with rfl | rfl | rfl <;>
    exact weightSeq_le_w_max _ (by norm_num [healthyParams, adParams, adTreatmentParams])
      (by norm_num [healthyParams, adParams, adTreatmentParams])
      (by norm_num [healthyParams, adParams, adTreatmentParams]) i

/-- Witness for C3 at the first entry of the Healthy trace. -/
theorem trace_weights_le_w_max_witness :
    weightSeq healthyParams 0 ≤ healthyParams.w_max :=
  trace_weights_le_w_max "Healthy" healthyParams (by simp [setup_parameters])
    (weightSeq healthyParams 0)
    (by
      rw [weights]
      exact List.mem_map.2
        ⟨0, List.mem_range.2 (by rw [numSteps_healthy]; norm_num), rfl⟩)

end LTP

namespace LTP

/-- C4: with the Healthy parameters, the weight at the grid point `t = 45` s
(index 450) lies strictly between `w_initial` and `w_max`, and its distance
to the Healthy `w_max` is strictly smaller than the distance of the AD
weight at the same grid point to the Healthy `w_max`. -/
theorem healthy_t45_between_and_closer_than_ad :
    (((450 : ℕ) : ℚ) * healthyParams.dt = 45) ∧
    healthyParams.w_initial < weightSeq healthyParams 450 ∧
    weightSeq healthyParams 450 < healthyParams.w_max ∧
    |healthyParams.w_max - weightSeq healthyParams 450| <
      |healthyParams.w_max - weightSeq adParams 450| := by
  have hq0 : (0 : ℚ) < ((19 : ℚ)/20) ^ 50 := by positivity
  have hq1 : ((19 : ℚ)/20) ^ 50 < 13/15 := by norm_num
  have hr0 : (0 : ℚ) < ((199 : ℚ)/200) ^ 50 := by positivity
  rw [weightSeq_healthy_450, weightSeq_ad_450,
    show healthyParams.w_max = 5/2 from rfl,
    show healthyParams.w_initial = 1 from rfl]
  refine ⟨by norm_num [healthyParams], by linarith, by linarith, ?_⟩
  rw [abs_of_nonneg (by linarith), abs_of_nonneg (by linarith)]
  linarith

end LTP

namespace LTP

/-- Shape of the trace for the shared timing of the three conditions. -/
lemma trace_shape (p : Params) (hn : numSteps p = 1000)
    (hdt : p.dt = 1/10) (ht : p.total_time = 100) :
    (timeSteps p).length = 1000 ∧ (weights p).length = 1000 ∧
    ((1000 : ℚ) = p.total_time / p.dt) ∧
    (∀ h0 : 0 < (timeSteps p).length, (timeSteps p).get ⟨0, h0⟩ = 0) ∧
    (∀ t ∈ timeSteps p, t < p.total_time) := by
  refine ⟨by rw [length_timeSteps, hn], by rw [length_weights, hn], ?_, ?_, ?_⟩
  · rw [ht, hdt]; norm_num
  · intro h0
    rw [timeSteps_get p 0 h0]
    norm_num
  · intro t ht'
    rw [timeSteps] at ht'
    obtain ⟨i, hi, rfl⟩ := List.mem_map.1 ht'
    rw [List.mem_range, hn] at hi
    have : (i : ℚ) < 1000 := by exact_mod_cast hi
    rw [hdt, ht]
    linarith

/-- C5: for each condition, the time and weight arrays both have length
`total_time / dt = 1000`; the grid starts at `0` and every grid point is
strictly below `total_time`. -/
theorem trace_lengths :
    ∀ nm : String, ∀ p : Params, (nm, p) ∈ setup_parameters →
      (timeSteps p).length = 1000 ∧ (weights p).length = 1000 ∧
      ((1000 : ℚ) = p.total_time / p.dt) ∧
      (∀ h0 : 0 < (timeSteps p).length, (timeSteps p).get ⟨0, h0⟩ = 0) ∧
      (∀ t ∈ timeSteps p, t < p.total_time) := by
  intro nm p hp
  rcases mem_setup_parameters hp with rfl | rfl | rfl
  · exact trace_shape _ numSteps_healthy rfl rfl
  · exact trace_shape _ numSteps_ad rfl rfl
  · exact trace_shape _ numSteps_adTreatment rfl rfl

/-- Witness for C5: the Healthy time array has 1000 entries. -/
theorem trace_lengths_witness : (timeSteps healthyParams).length = 1000 :=
  (trace_lengths "Healthy" healthyParams (by simp [setup_parameters])).1

/-- C6: with `learning_rate = 0` the weight trace is constant at
`w_initial` at every index, whatever the other parameters are. -/
theorem zero_learning_rate_constant (p : Params) (h : p.learning_rate = 0) :
    ∀ i : ℕ, weightSeq p i = p.w_initial := by
  intro i
  induction i with
  | zero => rfl
  | succ i ih =>
    rw [weightSeq_succ, h]
    split <;> simp [ih]

/-- The Healthy record with its learning rate zeroed out. -/
def zeroLrParams : Params := { healthyParams with learning_rate := 0 }

/-- Witness for C6 on `zeroLrParams` at index 450. -/
theorem zero_learning_rate_constant_witness :
    weightSeq zeroLrParams 450 = zeroLrParams.w_initial :=
  zero_learning_rate_constant zeroLrParams rfl 450

end LTP

namespace LTP

/-- The Healthy record with `total_time` set to `0` — a degenerate value
the spec says still produces output. -/
def zeroTotalTimeParams : Params := { healthyParams with total_time := 0 }

/-- Counterexample to C7 as stated: with `total_time = 0` the grid
`np.arange(0, 0, 0.1)` is empty and the assignment
`synaptic_weight[0] = w_initial` raises `IndexError`, so the simulation
fails rather than producing output. -/
theorem run_fails_on_zero_total_time :
    run_ltp_simulation zeroTotalTimeParams = none := by
  with_unfolding_all decide

/-- C7 (amended): `run_ltp_simulation` produces output for every record
whose step is nonzero and whose grid is nonempty; a zero step or an empty
grid (e.g. zero or negative `total_time`) makes it fail. -/
theorem run_succeeds_on_nonempty_grid (p : Params) (h1 : p.dt ≠ 0)
    (h2 : numSteps p ≠ 0) :
    run_ltp_simulation p = some (timeSteps p, weights p) := by
  rw [run_ltp_simulation, if_neg h1, if_neg h2]

/-- Witness for the amended C7 on the Healthy record. -/
theorem run_succeeds_on_nonempty_grid_witness :
    run_ltp_simulation healthyParams =
      some (timeSteps healthyParams, weights healthyParams) :=
  run_succeeds_on_nonempty_grid healthyParams (by norm_num [healthyParams])
    (by rw [numSteps_healthy]; norm_num)

/-- C8: `setup_parameters` holds exactly the three conditions Healthy, AD
and AD + Treatment, in that order; all three share `total_time = 100`,
`dt = 0.1`, `w_initial = 1`, `tetanus_start = 40` and `tetanus_end = 45`,
so the records can differ only in `w_max` and `learning_rate`. -/
theorem setup_parameters_shape :
    setup_parameters.map Prod.fst = ["Healthy", "AD", "AD + Treatment"] ∧
    (∀ q ∈ setup_parameters,
      q.2.total_time = 100 ∧ q.2.dt = 1/10 ∧ q.2.w_initial = 1 ∧
      q.2.tetanus_start = 40 ∧ q.2.tetanus_end = 45) := by
  refine ⟨rfl, ?_⟩
  intro q hq
  simp only [setup_parameters, List.mem_cons, List.not_mem_nil, or_false] at hq
  rcases hq with rfl | rfl | rfl <;> exact ⟨rfl, rfl, rfl, rfl, rfl⟩

/-- Witness for C8 on the Healthy record. -/
theorem setup_parameters_shape_witness :
    healthyParams.total_time = 100 ∧ healthyParams.dt = 1/10 ∧
    healthyParams.w_initial = 1 ∧ healthyParams.tetanus_start = 40 ∧
    healthyParams.tetanus_end = 45 :=
  setup_parameters_shape.2 ("Healthy", healthyParams)
    (by simp [setup_parameters])

/-- C9: the Healthy and AD + Treatment records are equal field by field,
so the simulator produces identical time and weight traces for them. -/
theorem healthy_adTreatment_identical :
    healthyParams = adTreatmentParams ∧
    run_ltp_simulation healthyParams = run_ltp_simulation adTreatmentParams ∧
    timeSteps healthyParams = timeSteps adTreatmentParams ∧
    weights healthyParams = weights adTreatmentParams :=
  ⟨rfl, rfl, rfl, rfl⟩

end LTP

namespace LTP

/-- Boundary behaviour at the end of the window for the shared timing. -/
lemma window_boundary_shared (p : Params) (hdt : p.dt = 1/10)
    (hs : p.tetanus_start = 40) (he : p.tetanus_end = 45) :
    (((450 : ℕ) : ℚ) * p.dt = p.tetanus_end) ∧
    ¬ inWindow p (((450 : ℕ) : ℚ) * p.dt) ∧
    weightSeq p (450 + 1) = weightSeq p 450 ∧
    inWindow p (((449 : ℕ) : ℚ) * p.dt) ∧
    weightSeq p (449 + 1) =
      weightSeq p 449 + p.learning_rate * (p.w_max - weightSeq p 449) * p.dt := by
  have hiff := inWindow_shared_iff p hdt hs he
  have h450 : ¬ inWindow p (((450 : ℕ) : ℚ) * p.dt) := fun h => by
    have := (hiff 450).1 h; omega
  have h449 : inWindow p (((449 : ℕ) : ℚ) * p.dt) := (hiff 449).2 (by omega)
  refine ⟨?_, h450, ?_, h449, ?_⟩
  · rw [hdt, he]; norm_num
  · rw [weightSeq_succ, if_neg h450]
  · rw [weightSeq_succ, if_pos h449]

/-- C10: the stimulation window is half-open. For every condition, the
update at step `i` is applied exactly when
`tetanus_start ≤ i * dt < tetanus_end` (strict at the right end); the grid
point at index 450 has time `45 = tetanus_end`, the step taken there holds
the weight constant, while the value stored at index 450 is produced by
the final in-window update one step earlier (index 449, time 44.9). -/
theorem window_halfopen_boundary :
    ∀ nm : String, ∀ p : Params, (nm, p) ∈ setup_parameters →
      (∀ i : ℕ, weightSeq p (i + 1) =
        if p.tetanus_start ≤ (i : ℚ) * p.dt ∧ (i : ℚ) * p.dt < p.tetanus_end
        then weightSeq p i + p.learning_rate * (p.w_max - weightSeq p i) * p.dt
        else weightSeq p i) ∧
      (((450 : ℕ) : ℚ) * p.dt = p.tetanus_end) ∧
      ¬ inWindow p (((450 : ℕ) : ℚ) * p.dt) ∧
      weightSeq p (450 + 1) = weightSeq p 450 ∧
      inWindow p (((449 : ℕ) : ℚ) * p.dt) ∧
      weightSeq p (449 + 1) =
        weightSeq p 449 + p.learning_rate * (p.w_max - weightSeq p 449) * p.dt := by
  intro nm p hp
  refine ⟨fun i => weightSeq_succ p i, ?_⟩
  rcases mem_setup_parameters hp with rfl | rfl | rfl <;>
    exact window_boundary_shared _ rfl rfl rfl

/-- Witness for C10: the Healthy weight is held constant across the step
taken at the grid point whose time is `tetanus_end`. -/
theorem window_halfopen_boundary_witness :
    weightSeq healthyParams (450 + 1) = weightSeq healthyParams 450 :=
  (window_halfopen_boundary "Healthy" healthyParams
      (by simp [setup_parameters])).2.2.2.1

end LTP
